import Mathlib

/-! Shallow embedding of the fastlimiter rate limiter (src/fastlimiter.go).

Modelling conventions:
* `time.Time` instants and `time.Duration` values are integers counting
  milliseconds.  `Get` converts the configured default duration with
  `int32(l.options.Duration / time.Millisecond)` and every duration the code
  manipulates afterwards is a whole number of milliseconds, so `Options.Duration`
  is stored in milliseconds directly.  `t1.Before(t2)` is `t1 < t2` and
  `t.Add(d)` is `t + d`.
* Go `int32` values are modelled as `Int`; no claim exercises wrap-around.
* Each operation receives a single instant `now`; the several `time.Now()`
  calls inside one call of an operation are identified.
* The two Go maps (`store`, `status`) are association lists with map
  semantics (`mlookup`, `minsert`, `merase`).  An atomic store into an item
  held by the map followed by re-inserting the item collapses to a single
  insertion of the final value, which is the net effect in the source.
* The options record is passed separately from the mutable map state.
-/

/-- Association-list lookup, Go `m[k]` with its `ok` flag as `Option`. -/
def mlookup {α : Type} : List (String × α) → String → Option α
  | [], _ => none
  | (k, v) :: rest, key => if k = key then some v else mlookup rest key

/-- Delete every binding of a key, Go `delete(m, k)`. -/
def merase {α : Type} : List (String × α) → String → List (String × α)
  | [], _ => []
  | (k, v) :: rest, key =>
      if k = key then merase rest key else (k, v) :: merase rest key

/-- Overwrite the binding of a key, Go `m[k] = v`. -/
def minsert {α : Type} (m : List (String × α)) (key : String) (v : α) :
    List (String × α) :=
  (key, v) :: merase m key

/-- `Options` of src/fastlimiter.go: durations in milliseconds. -/
structure Options where
  Prefix : String
  Max : Int
  CleanDuration : Int
  Duration : Int
deriving Repr, DecidableEq

/-- `statusCacheItem` of src/fastlimiter.go: the Escalation Entry. -/
structure statusCacheItem where
  Index : Int
  Expire : Int
deriving Repr, DecidableEq

/-- `limiterCacheItem` of src/fastlimiter.go: the Counter Entry. -/
structure limiterCacheItem where
  Total : Int
  Remaining : Int
  Duration : Int
  Expire : Int
deriving Repr, DecidableEq

/-- The two maps of a `FastLimiter` (its lock and ticker are not data). -/
structure FastLimiter where
  status : List (String × statusCacheItem)
  store : List (String × limiterCacheItem)
deriving Repr, DecidableEq

/-- `Result` of src/fastlimiter.go. -/
structure Result where
  Total : Int
  Remaining : Int
  Duration : Int
  Reset : Int
deriving Repr, DecidableEq

/-- Go's zero value `Result{}`, returned on the error path of `Get`. -/
def zeroResult : Result := { Total := 0, Remaining := 0, Duration := 0, Reset := 0 }

/-- `getMapValue` of src/fastlimiter.go. -/
def getMapValue (l : FastLimiter) (key : String) : Option limiterCacheItem :=
  mlookup l.store key

/-- `setMapValue` of src/fastlimiter.go. -/
def setMapValue (l : FastLimiter) (key : String) (res : limiterCacheItem) :
    FastLimiter :=
  { l with store := minsert l.store key res }

/-- `getStatusMapValue` of src/fastlimiter.go. -/
def getStatusMapValue (l : FastLimiter) (key : String) : Option statusCacheItem :=
  mlookup l.status key

/-- `setStatusMapValue` of src/fastlimiter.go. -/
def setStatusMapValue (l : FastLimiter) (key : String) (res : statusCacheItem) :
    FastLimiter :=
  { l with status := minsert l.status key res }

/-- `initCacheItem` of src/fastlimiter.go (lines 152-193).  With more than one
policy pair it consults the status map: when the key is absent it records
`Index = 1` and keeps the local `statusItem` pointer nil, so the tier-1 values
`args[0]`, `args[1]` are used; when an item exists, the code stores `1` into
its index if `Index >= policyCount` and increments it otherwise (the stored
item's `Expire` field is never read), then re-reads the index to pick the
tier values and replaces the status item.  The returned counter entry always
carries `Remaining = Total - 1` and `Expire = now + duration`. -/
def initCacheItem (l : FastLimiter) (now : Int) (key : String)
    (args : List Int) : limiterCacheItem × FastLimiter :=
  let policyCount : Int := (args.length / 2 : Nat)
  let statusKey : String := "\x7b" ++ key ++ "\x7d:S"
  let td : Int × Int × FastLimiter :=
    if policyCount > 1 then
      match getStatusMapValue l statusKey with
      | none =>
          (args.getD 0 0, args.getD 1 0,
            setStatusMapValue l statusKey
              { Index := 1, Expire := now + args.getD 1 0 * 2 })
      | some statusItem =>
          let index : Int :=
            if statusItem.Index ≥ policyCount then 1 else statusItem.Index + 1
          let duration := args.getD (index * 2 - 1).toNat 0
          (args.getD (index * 2 - 2).toNat 0, duration,
            setStatusMapValue l statusKey
              { Index := index, Expire := now + duration * 2 })
    else
      (args.getD 0 0, args.getD 1 0, l)
  let res : limiterCacheItem :=
    { Total := td.1, Remaining := td.1 - 1, Duration := td.2.1,
      Expire := now + td.2.1 }
  (res, setMapValue td.2.2 key res)

/-- `getLimit` of src/fastlimiter.go (lines 112-128).  An existing entry is
stale exactly when `res.Expire.Before(time.Now())`, i.e. `Expire < now`;
a live entry at `-1` is returned without a write, otherwise its remaining
count is atomically decremented in place. -/
def getLimit (l : FastLimiter) (now : Int) (key : String) (args : List Int) :
    limiterCacheItem × FastLimiter :=
  match getMapValue l key with
  | some res =>
      if res.Expire < now then initCacheItem l now key args
      else if res.Remaining = -1 then (res, l)
      else
        let res2 := { res with Remaining := res.Remaining - 1 }
        (res2, setMapValue l key res2)
  | none => initCacheItem l now key args

/-- `getResult` of src/fastlimiter.go: packs the cache item into a `Result`
and always returns a nil error. -/
def getResult (l : FastLimiter) (now : Int) (id : String) (policy : List Int) :
    Result × Option String × FastLimiter :=
  let rs := getLimit l now id policy
  ({ Total := rs.1.Total, Remaining := rs.1.Remaining,
     Duration := rs.1.Duration, Reset := rs.1.Expire }, none, rs.2)

/-- `Get` of src/fastlimiter.go (lines 73-85): the only validation is the
odd-length check; an empty policy is replaced by the configured default
single tier. -/
def Get (opts : Options) (l : FastLimiter) (now : Int) (id : String)
    (policy : List Int) : Result × Option String × FastLimiter :=
  if policy.length % 2 = 1 then
    (zeroResult, some "fastlimiter: must be paired values", l)
  else
    let key := opts.Prefix ++ id
    let policy2 := if policy.length = 0 then [opts.Max, opts.Duration] else policy
    getResult l now key policy2

/-- `Remove` of src/fastlimiter.go (lines 88-96): deletes the counter entry
and the derived status key. -/
def Remove (opts : Options) (l : FastLimiter) (id : String) : FastLimiter :=
  let key := opts.Prefix ++ id
  let statusKey := "\x7b" ++ key ++ "\x7d:S"
  { status := merase l.status statusKey, store := merase l.store key }

/-- `Count` of src/fastlimiter.go: the size of the counter store only. -/
def Count (l : FastLimiter) : Nat := l.store.length

/-- `Clean` of src/fastlimiter.go (lines 211-217): ranges over the store and
calls `l.Remove(key)` on each expired entry's key.  `Remove` prefixes its
argument again, so the keys it deletes are the already-prefixed store key
with the prefix applied twice. -/
def Clean (opts : Options) (l : FastLimiter) (now : Int) : FastLimiter :=
  l.store.foldl
    (fun acc kv => if kv.2.Expire < now then Remove opts acc kv.1 else acc) l

/-- `New` of src/fastlimiter.go: fills in the default options (prefix
`limit:`, max 1000, duration one minute) and starts from empty maps. -/
def New (opts : Options) : Options × FastLimiter :=
  let o1 := if opts.Duration = 0 then { opts with Duration := 60000 } else opts
  let o2 := if o1.Prefix = "" then { o1 with Prefix := "limit:" } else o1
  let o3 := if o2.Max = 0 then { o2 with Max := 1000 } else o2
  (o3, { status := [], store := [] })

/-- The options produced by `New` from the zero `Options`. -/
def defaultOpts : Options :=
  (New { Prefix := "", Max := 0, CleanDuration := 0, Duration := 0 }).1

/-- The empty limiter state produced by `New`. -/
def initialState : FastLimiter := { status := [], store := [] }

/-- C1: the spec says that with an unexpired Escalation Entry recording the
last tier, the next fresh window is pinned at the last tier
(`min(idx + 1, tierCount)`).  In src/fastlimiter.go `initCacheItem` instead
stores index `1` whenever `Index >= policyCount`: with tiers `[3,100,2,200]`,
an unexpired status item at index 2 (the last tier) and a fresh window at
`now = 100`, the call hands out tier 1 (`Total = 3`) and records index 1,
not tier 2.  The repository's own test file asserts the pinned behaviour
(`Total = 2` after re-exhausting the last tier), so this run exhibits the
code bug. -/
theorem C1_last_tier_wraps_to_first :
    (Get defaultOpts
        { status := [("\x7blimit:a\x7d:S", { Index := 2, Expire := 1000000 })],
          store := [] } 100 "a" [3, 100, 2, 200]).1.Total = 3 ∧
    (Get defaultOpts
        { status := [("\x7blimit:a\x7d:S", { Index := 2, Expire := 1000000 })],
          store := [] } 100 "a" [3, 100, 2, 200]).1.Remaining = 2 ∧
    mlookup (Get defaultOpts
        { status := [("\x7blimit:a\x7d:S", { Index := 2, Expire := 1000000 })],
          store := [] } 100 "a" [3, 100, 2, 200]).2.2.status "\x7blimit:a\x7d:S"
      = some { Index := 1, Expire := 300 } := by
  decide

/-- C2: the spec says an Escalation Entry whose `expireAt` is before `now` is
treated as absent and the fresh window restarts at tier 1.  In
src/fastlimiter.go the stored `Expire` field of a status item is never read:
with tiers `[3,100,2,200]`, a status item `{Index = 1, Expire = 50}` long
expired at `now = 100` and no counter entry, the call still escalates to
tier 2 (`Total = 2`, index 2 recorded) instead of restarting at tier 1
(`Total = 3`).  The repository's own test file asserts the restore-to-first
behaviour, so this run exhibits the code bug. -/
theorem C2_expired_status_still_escalates :
    (Get defaultOpts
        { status := [("\x7blimit:a\x7d:S", { Index := 1, Expire := 50 })],
          store := [] } 100 "a" [3, 100, 2, 200]).1.Total = 2 ∧
    (Get defaultOpts
        { status := [("\x7blimit:a\x7d:S", { Index := 1, Expire := 50 })],
          store := [] } 100 "a" [3, 100, 2, 200]).1.Remaining = 1 ∧
    mlookup (Get defaultOpts
        { status := [("\x7blimit:a\x7d:S", { Index := 1, Expire := 50 })],
          store := [] } 100 "a" [3, 100, 2, 200]).2.2.status "\x7blimit:a\x7d:S"
      = some { Index := 2, Expire := 500 } := by
  decide

/-- C3: the spec says the sweep deletes every entry whose `expireAt` is
before `now`.  In src/fastlimiter.go `Clean` iterates over the store keys,
which already carry the prefix, and calls `Remove(key)`, which prepends the
prefix again, so the delete targets `limit:limit:a` while the entry lives at
`limit:a`: after the sweep at `now = 100` the entry expired at `50` is still
present and the store size is unchanged.  This run exhibits the code bug. -/
theorem C3_clean_leaves_expired_entry :
    mlookup (Clean defaultOpts
        { status := [],
          store := [("limit:a",
            { Total := 10, Remaining := 5, Duration := 100, Expire := 50 })] }
        100).store "limit:a"
      = some { Total := 10, Remaining := 5, Duration := 100, Expire := 50 } ∧
    Count (Clean defaultOpts
        { status := [],
          store := [("limit:a",
            { Total := 10, Remaining := 5, Duration := 100, Expire := 50 })] }
        100) = 1 := by
  decide

/-- C4: the spec says a tier list containing a non-positive quota or window,
such as `[-1, 10]`, yields `InvalidPolicyError` with no state mutated.  In
src/fastlimiter.go `Get` only checks that the length is even: the call
`Get(id, -1, 10)` returns a nil error together with `Total = -1`,
`Remaining = -2`, and stores that entry.  The repository's test file asserts
the error `fastlimiter: must be positive integer`, which no code path
produces, so this run exhibits the code bug. -/
theorem C4_nonpositive_policy_accepted :
    (Get defaultOpts initialState 0 "a" [-1, 10]).2.1 = none ∧
    (Get defaultOpts initialState 0 "a" [-1, 10]).1.Total = -1 ∧
    (Get defaultOpts initialState 0 "a" [-1, 10]).1.Remaining = -2 ∧
    mlookup (Get defaultOpts initialState 0 "a" [-1, 10]).2.2.store "limit:a"
      = some { Total := -1, Remaining := -2, Duration := 10, Expire := 10 } := by
  decide

@[simp]
theorem mlookup_merase_self {α : Type} (m : List (String × α)) (k : String) :
    mlookup (merase m k) k = none := by
  induction m with
  | nil => rfl
  | cons p rest ih =>
      obtain ⟨a, b⟩ := p
      by_cases h : a = k <;> simp [merase, mlookup, h, ih]

theorem mlookup_merase_ne {α : Type} (m : List (String × α)) (k k' : String)
    (h : k ≠ k') : mlookup (merase m k) k' = mlookup m k' := by
  induction m with
  | nil => rfl
  | cons p rest ih =>
      obtain ⟨a, b⟩ := p
      by_cases ha : a = k
      · subst ha; simp [merase, mlookup, ih, h]
      · simp [merase, mlookup, ha, ih]

@[simp]
theorem mlookup_minsert_self {α : Type} (m : List (String × α)) (k : String)
    (v : α) : mlookup (minsert m k v) k = some v := by
  simp [minsert, mlookup]

theorem mlookup_minsert_ne {α : Type} (m : List (String × α)) (k k' : String)
    (v : α) (h : k ≠ k') : mlookup (minsert m k v) k' = mlookup m k' := by
  simp [minsert, mlookup, h, mlookup_merase_ne m k k' h]

theorem merase_of_lookup_none {α : Type} (m : List (String × α)) (k : String)
    (h : mlookup m k = none) : merase m k = m := by
  induction m with
  | nil => rfl
  | cons p rest ih =>
      obtain ⟨a, b⟩ := p
      by_cases ha : a = k
      · subst ha; simp [mlookup] at h
      · simp [mlookup, ha] at h
        simp [merase, ha, ih h]

theorem length_minsert_of_none {α : Type} (m : List (String × α)) (k : String)
    (v : α) (h : mlookup m k = none) :
    (minsert m k v).length = m.length + 1 := by
  simp [minsert, merase_of_lookup_none m k h]

theorem string_append_left_cancel (p a b : String) (h : p ++ a = p ++ b) :
    a = b := by
  have h2 : (p ++ a).data = (p ++ b).data := congrArg String.data h
  simp only [String.data_append] at h2
  exact String.ext (List.append_cancel_left h2)

/-- C6: an odd-length tier list makes `Get` return the invalid-policy error
and return the whole limiter state (both maps) untouched: no entry for the
identifier is created or mutated. -/
theorem C6_odd_policy_error_no_mutation (opts : Options) (l : FastLimiter)
    (now : Int) (id : String) (policy : List Int)
    (hodd : policy.length % 2 = 1) :
    Get opts l now id policy
      = (zeroResult, some "fastlimiter: must be paired values", l) := by
  simp [Get, hodd]

/-- C6 witness: the spec's example `decide(id, [10, 1000, 1])`. -/
theorem C6_odd_policy_error_no_mutation_witness :
    ([(10 : Int), 1000, 1].length % 2 = 1) ∧
    Get defaultOpts initialState 0 "a" [10, 1000, 1]
      = (zeroResult, some "fastlimiter: must be paired values", initialState) :=
  ⟨by decide,
    C6_odd_policy_error_no_mutation defaultOpts initialState 0 "a"
      [10, 1000, 1] (by decide)⟩

/-- C9: whenever `Get` returns an error, the accompanying `Result` is the
zero `Result` (all fields zero) and the state comes back unchanged: no
partial decision data accompanies an error. -/
theorem C9_error_implies_zero_result (opts : Options) (l : FastLimiter)
    (now : Int) (id : String) (policy : List Int) (msg : String)
    (herr : (Get opts l now id policy).2.1 = some msg) :
    (Get opts l now id policy).1 = zeroResult ∧
    (Get opts l now id policy).2.2 = l := by
  by_cases h : policy.length % 2 = 1
  · simp [Get, h]
  · simp [Get, h, getResult] at herr

/-- C9 witness: the odd policy `[10]` errors and carries the zero result. -/
theorem C9_error_implies_zero_result_witness :
    (Get defaultOpts initialState 0 "a" [10]).2.1
      = some "fastlimiter: must be paired values" ∧
    (Get defaultOpts initialState 0 "a" [10]).1 = zeroResult ∧
    (Get defaultOpts initialState 0 "a" [10]).2.2 = initialState :=
  ⟨by decide,
    C9_error_implies_zero_result defaultOpts initialState 0 "a" [10]
      "fastlimiter: must be paired values" (by decide)⟩

/-- Every counter entry built by `initCacheItem` carries
`Remaining = Total - 1`, whatever tier its arguments select. -/
theorem initCacheItem_remaining (l : FastLimiter) (now : Int) (key : String)
    (args : List Int) :
    (initCacheItem l now key args).1.Remaining
      = (initCacheItem l now key args).1.Total - 1 := rfl

/-- C8 counterexample: with a live entry whose `Expire` equals the lookup
instant (`Expire = 500`, lookup at `now = 500`), src/fastlimiter.go
decrements the old entry (`Remaining` drops from 9 to 8) instead of
re-initializing a fresh window (which would give `Remaining = Total - 1 =
9`): a lookup exactly at `expireAt` is not treated as stale, refuting the
claim's "including exactly equal" case. -/
theorem C8_equal_expiry_decrements_counterexample :
    (Get defaultOpts
        { status := [],
          store := [("limit:a",
            { Total := 10, Remaining := 9, Duration := 100, Expire := 500 })] }
        500 "a" [10, 100]).1.Remaining = 8 ∧
    (Get defaultOpts
        { status := [],
          store := [("limit:a",
            { Total := 10, Remaining := 9, Duration := 100, Expire := 500 })] }
        500 "a" [10, 100]).1.Remaining ≠
      (Get defaultOpts
        { status := [],
          store := [("limit:a",
            { Total := 10, Remaining := 9, Duration := 100, Expire := 500 })] }
        500 "a" [10, 100]).1.Total - 1 := by
  decide

/-- C8 amended: an existing entry is treated as stale exactly when the
lookup's current time is strictly after its `expireAt` (`Expire < now`);
in that case `Get` re-initializes a fresh window, returning no error and
`remaining = total - 1`, rather than decrementing the old entry.  A lookup
exactly at `expireAt` still belongs to the old window. -/
theorem C8_strictly_stale_reinitializes (opts : Options) (l : FastLimiter)
    (now : Int) (id : String) (policy : List Int) (e : limiterCacheItem)
    (hlen : policy.length % 2 ≠ 1)
    (hfound : mlookup l.store (opts.Prefix ++ id) = some e)
    (hstale : e.Expire < now) :
    (Get opts l now id policy).2.1 = none ∧
    (Get opts l now id policy).1.Remaining
      = (Get opts l now id policy).1.Total - 1 := by
  simp only [Get, if_neg hlen, getResult, getLimit, getMapValue, hfound,
    if_pos hstale]
  exact ⟨by trivial, initCacheItem_remaining _ _ _ _⟩

/-- C8 witness: a concrete strictly-stale lookup re-initializes. -/
theorem C8_strictly_stale_reinitializes_witness :
    (([(10 : Int), 100].length % 2 ≠ 1) ∧
     mlookup (FastLimiter.mk []
        [("limit:a", ⟨10, 3, 100, 50⟩)]).store (defaultOpts.Prefix ++ "a")
       = some ⟨10, 3, 100, 50⟩ ∧
     ((50 : Int) < 100)) ∧
    ((Get defaultOpts (FastLimiter.mk [] [("limit:a", ⟨10, 3, 100, 50⟩)])
        100 "a" [10, 100]).2.1 = none ∧
     (Get defaultOpts (FastLimiter.mk [] [("limit:a", ⟨10, 3, 100, 50⟩)])
        100 "a" [10, 100]).1.Remaining
       = (Get defaultOpts (FastLimiter.mk [] [("limit:a", ⟨10, 3, 100, 50⟩)])
        100 "a" [10, 100]).1.Total - 1) :=
  ⟨⟨by decide, by decide, by decide⟩,
    C8_strictly_stale_reinitializes defaultOpts
      (FastLimiter.mk [] [("limit:a", ⟨10, 3, 100, 50⟩)]) 100 "a" [10, 100]
      ⟨10, 3, 100, 50⟩ (by decide) (by decide) (by decide)⟩

/-- `initCacheItem` started with no status entry for the key computes, from
any two such states, the same counter entry, the same stored counter entry
and the same stored status entry for that key. -/
theorem initCacheItem_fresh_agree (l₁ l₂ : FastLimiter) (now : Int)
    (key : String) (args : List Int)
    (ht₁ : mlookup l₁.status ("\x7b" ++ key ++ "\x7d:S") = none)
    (ht₂ : mlookup l₂.status ("\x7b" ++ key ++ "\x7d:S") = none) :
    (initCacheItem l₁ now key args).1 = (initCacheItem l₂ now key args).1 ∧
    mlookup (initCacheItem l₁ now key args).2.store key
      = mlookup (initCacheItem l₂ now key args).2.store key ∧
    mlookup (initCacheItem l₁ now key args).2.status ("\x7b" ++ key ++ "\x7d:S")
      = mlookup (initCacheItem l₂ now key args).2.status
          ("\x7b" ++ key ++ "\x7d:S") := by
  refine ⟨?_, ?_, ?_⟩ <;>
    · simp only [initCacheItem, getStatusMapValue, setStatusMapValue,
        setMapValue, ht₁, ht₂]
      split <;> simp [ht₁, ht₂]

/-- `Get` started with no counter entry and no status entry for the
identifier computes, from any two such states, the same result, the same
error and the same stored entries for that identifier. -/
theorem Get_fresh_agree (opts : Options) (l₁ l₂ : FastLimiter) (now : Int)
    (id : String) (policy : List Int)
    (hs₁ : mlookup l₁.store (opts.Prefix ++ id) = none)
    (hs₂ : mlookup l₂.store (opts.Prefix ++ id) = none)
    (ht₁ : mlookup l₁.status ("\x7b" ++ (opts.Prefix ++ id) ++ "\x7d:S") = none)
    (ht₂ : mlookup l₂.status ("\x7b" ++ (opts.Prefix ++ id) ++ "\x7d:S") = none) :
    (Get opts l₁ now id policy).1 = (Get opts l₂ now id policy).1 ∧
    (Get opts l₁ now id policy).2.1 = (Get opts l₂ now id policy).2.1 ∧
    mlookup (Get opts l₁ now id policy).2.2.store (opts.Prefix ++ id)
      = mlookup (Get opts l₂ now id policy).2.2.store (opts.Prefix ++ id) ∧
    mlookup (Get opts l₁ now id policy).2.2.status
        ("\x7b" ++ (opts.Prefix ++ id) ++ "\x7d:S")
      = mlookup (Get opts l₂ now id policy).2.2.status
        ("\x7b" ++ (opts.Prefix ++ id) ++ "\x7d:S") := by
  by_cases hodd : policy.length % 2 = 1
  · simp [Get, hodd, hs₁, hs₂, ht₁, ht₂]
  · have h := initCacheItem_fresh_agree l₁ l₂ now (opts.Prefix ++ id)
      (if policy.length = 0 then [opts.Max, opts.Duration] else policy) ht₁ ht₂
    simp only [Get, if_neg hodd, getResult, getLimit, getMapValue, hs₁, hs₂]
    exact ⟨by rw [h.1], by trivial, h.2.1, h.2.2⟩

/-- C7: `Remove` deletes both the counter entry and the status entry of the
identifier, so a following `Get` for it computes the same result fields, the
same error and the same stored entries for that identifier as a `Get` from
the never-seen (empty) limiter state. -/
theorem C7_remove_then_get_is_fresh (opts : Options) (l : FastLimiter)
    (now : Int) (id : String) (policy : List Int) :
    (Get opts (Remove opts l id) now id policy).1
      = (Get opts initialState now id policy).1 ∧
    (Get opts (Remove opts l id) now id policy).2.1
      = (Get opts initialState now id policy).2.1 ∧
    mlookup (Get opts (Remove opts l id) now id policy).2.2.store
        (opts.Prefix ++ id)
      = mlookup (Get opts initialState now id policy).2.2.store
        (opts.Prefix ++ id) ∧
    mlookup (Get opts (Remove opts l id) now id policy).2.2.status
        ("\x7b" ++ (opts.Prefix ++ id) ++ "\x7d:S")
      = mlookup (Get opts initialState now id policy).2.2.status
        ("\x7b" ++ (opts.Prefix ++ id) ++ "\x7d:S") :=
  Get_fresh_agree opts (Remove opts l id) initialState now id policy
    (mlookup_merase_self l.store (opts.Prefix ++ id))
    rfl
    (mlookup_merase_self l.status ("\x7b" ++ (opts.Prefix ++ id) ++ "\x7d:S"))
    rfl

/-- The results of a sequence of `Get` calls for one identifier and one
policy at the given instants, threading the limiter state through. -/
def GetSeq (opts : Options) (id : String) (policy : List Int) :
    FastLimiter → List Int → List Result
  | _, [] => []
  | l, t :: ts =>
      (Get opts l t id policy).1
        :: GetSeq opts id policy (Get opts l t id policy).2.2 ts

/-- A first `Get` with a single-tier policy and no stored entry creates the
window `(Q, Q - 1, W, now + W)`. -/
theorem Get_single_fresh (opts : Options) (l : FastLimiter) (now : Int)
    (id : String) (Q W : Int)
    (hfresh : mlookup l.store (opts.Prefix ++ id) = none) :
    Get opts l now id [Q, W]
      = (⟨Q, Q - 1, W, now + W⟩, none,
          setMapValue l (opts.Prefix ++ id) ⟨Q, Q - 1, W, now + W⟩) := by
  simp [Get, getResult, getLimit, getMapValue, hfresh, initCacheItem,
    setMapValue]

/-- A `Get` on a live single-tier entry that is not at `-1` decrements it. -/
theorem Get_live_dec (opts : Options) (l : FastLimiter) (now : Int)
    (id : String) (Q r W E : Int)
    (hfound : mlookup l.store (opts.Prefix ++ id) = some ⟨Q, r, W, E⟩)
    (hlive : ¬ E < now) (hr : r ≠ -1) :
    Get opts l now id [Q, W]
      = (⟨Q, r - 1, W, E⟩, none,
          setMapValue l (opts.Prefix ++ id) ⟨Q, r - 1, W, E⟩) := by
  simp [Get, getResult, getLimit, getMapValue, hfound, hlive, hr, setMapValue]

/-- A `Get` on a live entry already at `-1` returns it with no state write. -/
theorem Get_live_hold (opts : Options) (l : FastLimiter) (now : Int)
    (id : String) (Q W E : Int)
    (hfound : mlookup l.store (opts.Prefix ++ id) = some ⟨Q, -1, W, E⟩)
    (hlive : ¬ E < now) :
    Get opts l now id [Q, W] = (⟨Q, -1, W, E⟩, none, l) := by
  simp [Get, getResult, getLimit, getMapValue, hfound, hlive]

/-- Countdown invariant: with a live single-tier entry carrying remaining
count `max (Q - j) (-1)` and calls all within the window, the k-th further
call returns remaining count `max (Q - (j + k + 1)) (-1)`. -/
theorem GetSeq_live_inv (opts : Options) (id : String) (Q W E : Int)
    (ts : List Int) :
    ∀ (l : FastLimiter) (j : Int),
      mlookup l.store (opts.Prefix ++ id) = some ⟨Q, max (Q - j) (-1), W, E⟩ →
      (∀ t ∈ ts, t ≤ E) →
      ∀ k : Nat, k < ts.length →
        ((GetSeq opts id [Q, W] l ts).getD k zeroResult).Total = Q ∧
        ((GetSeq opts id [Q, W] l ts).getD k zeroResult).Remaining
          = max (Q - (j + k + 1)) (-1) := by
  induction ts with
  | nil => intro l j _ _ k hk; exact absurd hk (by simp)
  | cons t ts ih =>
      intro l j hstore hin k hk
      have hlive : ¬ E < t := not_lt.mpr (hin t (by simp))
      have hin' : ∀ t' ∈ ts, t' ≤ E := fun t' ht' => hin t' (by simp [ht'])
      by_cases hr : Q - j ≤ -1
      · have hm : max (Q - j) (-1) = -1 := by omega
        rw [hm] at hstore
        have hget := Get_live_hold opts l t id Q W E hstore hlive
        have hstore' : mlookup l.store (opts.Prefix ++ id)
            = some ⟨Q, max (Q - (j + 1)) (-1), W, E⟩ := by
          have hm' : max (Q - (j + 1)) (-1) = -1 := by omega
          rw [hm']; exact hstore
        match k with
        | 0 => refine ⟨by simp [GetSeq, hget], ?_⟩; simp [GetSeq, hget]; omega
        | k' + 1 =>
            have hrec := ih l (j + 1) hstore' hin' k' (by simpa using hk)
            simp only [GetSeq, hget, List.getD_cons_succ]
            exact ⟨hrec.1, by rw [hrec.2]; congr 1; omega⟩
      · have hm : max (Q - j) (-1) = Q - j := by omega
        rw [hm] at hstore
        have hget := Get_live_dec opts l t id Q (Q - j) W E hstore hlive
          (by omega)
        have hstore' :
            mlookup (setMapValue l (opts.Prefix ++ id) ⟨Q, Q - j - 1, W, E⟩).store
                (opts.Prefix ++ id)
              = some ⟨Q, max (Q - (j + 1)) (-1), W, E⟩ := by
          have hm' : max (Q - (j + 1)) (-1) = Q - j - 1 := by omega
          rw [hm']; exact mlookup_minsert_self _ _ _
        match k with
        | 0 => refine ⟨by simp [GetSeq, hget], ?_⟩; simp [GetSeq, hget]; omega
        | k' + 1 =>
            have hrec := ih (setMapValue l (opts.Prefix ++ id) ⟨Q, Q - j - 1, W, E⟩)
              (j + 1) hstore' hin' k' (by simpa using hk)
            simp only [GetSeq, hget, List.getD_cons_succ]
            exact ⟨hrec.1, by rw [hrec.2]; congr 1; omega⟩

/-- C5: for a single-tier policy `[Q, W]` with `Q ≥ 1`, a sequence of `Get`
calls whose instants all lie within the first call's window returns
`Q - 1` on the first call, counts down to `0` on the Q-th call, and `-1` on
the (Q+1)-th and every later call, never lower: the 1-based call number
`k + 1` returns total `Q` and remaining `max (Q - (k + 1)) (-1)`. -/
theorem C5_single_tier_countdown (opts : Options) (l : FastLimiter)
    (id : String) (Q W t0 : Int) (ts : List Int)
    (hQ : 1 ≤ Q)
    (hfresh : mlookup l.store (opts.Prefix ++ id) = none)
    (hin : ∀ t ∈ ts, t ≤ t0 + W)
    (k : Nat) (hk : k < (t0 :: ts).length) :
    ((GetSeq opts id [Q, W] l (t0 :: ts)).getD k zeroResult).Total = Q ∧
    ((GetSeq opts id [Q, W] l (t0 :: ts)).getD k zeroResult).Remaining
      = max (Q - (k + 1)) (-1) := by
  have hget := Get_single_fresh opts l t0 id Q W hfresh
  have hstore' :
      mlookup (setMapValue l (opts.Prefix ++ id) ⟨Q, Q - 1, W, t0 + W⟩).store
          (opts.Prefix ++ id)
        = some ⟨Q, max (Q - 1) (-1), W, t0 + W⟩ := by
    have hm : max (Q - 1) (-1) = Q - 1 := by omega
    rw [hm]; exact mlookup_minsert_self _ _ _
  match k with
  | 0 => refine ⟨by simp [GetSeq, hget], ?_⟩; simp [GetSeq, hget]; omega
  | k' + 1 =>
      have hrec := GetSeq_live_inv opts id Q W (t0 + W) ts
        (setMapValue l (opts.Prefix ++ id) ⟨Q, Q - 1, W, t0 + W⟩) 1 hstore' hin
        k' (by simpa using hk)
      simp only [GetSeq, hget, List.getD_cons_succ]
      exact ⟨hrec.1, by rw [hrec.2]; congr 1; omega⟩

/-- C5 witness: quota 2, window 100, calls at instants 0, 10, 20, 30: the
fourth call returns remaining `-1` (and not lower). -/
theorem C5_single_tier_countdown_witness :
    ((1 : Int) ≤ 2 ∧
     mlookup initialState.store (defaultOpts.Prefix ++ "a") = none ∧
     (∀ t ∈ [(10 : Int), 20, 30], t ≤ 0 + 100) ∧
     (3 : Nat) < ([(0 : Int), 10, 20, 30]).length) ∧
    ((GetSeq defaultOpts "a" [2, 100] initialState [0, 10, 20, 30]).getD 3
        zeroResult).Total = 2 ∧
    ((GetSeq defaultOpts "a" [2, 100] initialState [0, 10, 20, 30]).getD 3
        zeroResult).Remaining = max (2 - (3 + 1)) (-1) :=
  ⟨⟨by decide, by decide, by decide, by decide⟩,
    C5_single_tier_countdown defaultOpts initialState "a" 2 100 0 [10, 20, 30]
      (by decide) (by decide) (by decide) 3 (by decide)⟩

/-- Thread a list of `(identifier, policy)` calls through `Get`, keeping the
final limiter state. -/
def GetMany (opts : Options) (now : Int) :
    FastLimiter → List (String × List Int) → FastLimiter
  | l, [] => l
  | l, c :: cs => GetMany opts now (Get opts l now c.1 c.2).2.2 cs

/-- `initCacheItem` changes the counter store by exactly one insertion: the
key it was called for, bound to the entry it returns. -/
theorem initCacheItem_store (l : FastLimiter) (now : Int) (key : String)
    (args : List Int) :
    (initCacheItem l now key args).2.store
      = minsert l.store key (initCacheItem l now key args).1 := by
  rcases hml : mlookup l.status ("\x7b" ++ key ++ "\x7d:S") with _ | si <;>
    · simp only [initCacheItem, setMapValue, setStatusMapValue,
        getStatusMapValue, hml]
      split <;> rfl

/-- A successful `Get` on an identifier with no stored counter entry changes
the store by exactly one insertion at that identifier's key. -/
theorem Get_fresh_store (opts : Options) (l : FastLimiter) (now : Int)
    (id : String) (policy : List Int)
    (hodd : ¬ policy.length % 2 = 1)
    (hfresh : mlookup l.store (opts.Prefix ++ id) = none) :
    ∃ res, (Get opts l now id policy).2.2.store
      = minsert l.store (opts.Prefix ++ id) res := by
  simp only [Get, if_neg hodd, getResult, getLimit, getMapValue, hfresh]
  exact ⟨_, initCacheItem_store l now (opts.Prefix ++ id) _⟩

/-- Successful `Get` calls over pairwise distinct fresh identifiers add
exactly one counter entry each. -/
theorem GetMany_count (opts : Options) (now : Int) :
    ∀ (calls : List (String × List Int)) (l : FastLimiter),
      (∀ c ∈ calls, mlookup l.store (opts.Prefix ++ c.1) = none) →
      (calls.map Prod.fst).Nodup →
      (∀ c ∈ calls, c.2.length % 2 = 0) →
      Count (GetMany opts now l calls) = Count l + calls.length := by
  intro calls
  induction calls with
  | nil => intro l _ _ _; simp [GetMany]
  | cons c cs ih =>
      intro l hfresh hnodup heven
      have hodd : ¬ c.2.length % 2 = 1 := by
        have := heven c (by simp); omega
      have hfr : mlookup l.store (opts.Prefix ++ c.1) = none :=
        hfresh c (by simp)
      obtain ⟨res, hst⟩ := Get_fresh_store opts l now c.1 c.2 hodd hfr
      have hcount : Count (Get opts l now c.1 c.2).2.2 = Count l + 1 := by
        simp [Count, hst, length_minsert_of_none l.store _ res hfr]
      have hnodup' : (cs.map Prod.fst).Nodup := by
        rw [List.map_cons, List.nodup_cons] at hnodup
        exact hnodup.2
      have hfresh' : ∀ c' ∈ cs,
          mlookup (Get opts l now c.1 c.2).2.2.store (opts.Prefix ++ c'.1)
            = none := by
        intro c' hc'
        have hne : opts.Prefix ++ c.1 ≠ opts.Prefix ++ c'.1 := by
          intro hcontra
          have heq : c.1 = c'.1 := string_append_left_cancel _ _ _ hcontra
          have hmem : c'.1 ∈ cs.map Prod.fst :=
            List.mem_map_of_mem Prod.fst hc'
          rw [List.map_cons, List.nodup_cons] at hnodup
          exact hnodup.1 (heq ▸ hmem)
        rw [hst, mlookup_minsert_ne _ _ _ _ hne]
        exact hfresh c' (by simp [hc'])
      have hrec := ih (Get opts l now c.1 c.2).2.2 hfresh' hnodup'
        (fun c' hc' => heven c' (by simp [hc']))
      simp only [GetMany]
      rw [hrec, hcount]
      simp [List.length_cons]
      omega

/-- C10: `Count` counts only counter entries: a sequence of successful `Get`
calls (even-length tier lists, multi-tier ones included) over pairwise
distinct identifiers, starting from the fresh limiter, leaves exactly one
counter entry per identifier, so `Count` returns the number of identifiers;
and writing an escalation entry through `setStatusMapValue` never changes
`Count`. -/
theorem C10_count_tracks_store_only (opts : Options) (now : Int)
    (calls : List (String × List Int))
    (hdistinct : (calls.map Prod.fst).Nodup)
    (heven : ∀ c ∈ calls, c.2.length % 2 = 0) :
    Count (GetMany opts now initialState calls) = calls.length ∧
    ∀ (l : FastLimiter) (key : String) (v : statusCacheItem),
      Count (setStatusMapValue l key v) = Count l := by
  refine ⟨?_, fun l key v => rfl⟩
  have h := GetMany_count opts now calls initialState
    (fun c _ => rfl) hdistinct heven
  simpa [Count, initialState] using h

/-- C10 witness: one single-tier identifier and one multi-tier identifier
(the latter also creating an escalation entry) give `Count = 2`. -/
theorem C10_count_tracks_store_only_witness :
    ((([("a", [(10 : Int), 1000]), ("b", [3, 100, 2, 200])].map Prod.fst).Nodup) ∧
     (∀ c ∈ [("a", [(10 : Int), 1000]), ("b", [3, 100, 2, 200])],
        c.2.length % 2 = 0)) ∧
    Count (GetMany defaultOpts 0 initialState
        [("a", [10, 1000]), ("b", [3, 100, 2, 200])]) = 2 :=
  ⟨⟨by decide, by decide⟩,
    (C10_count_tracks_store_only defaultOpts 0
      [("a", [10, 1000]), ("b", [3, 100, 2, 200])] (by decide) (by decide)).1⟩
